import Mathlib

/-!
Shallow embedding of the facial-expression-generator application
(`src/types.ts` and the application component in `src/unnamed/part_000`).

The component's three handlers are embedded as pure functions over an
explicit application state:

* `handleFileChange` / `handleImageUpload` — image ingestion;
* `handleGenerateExpressions` — the batch orchestrator: one generation
  call per catalog entry, a completion counter and progress emissions,
  `Promise.all`-style aggregation (fail-fast, values in input order);
* `handleDownloadAll` — the archive exporter.

Concurrency is embedded by quantifying over the order in which the 8
calls resolve (`order`, a permutation of the catalog) and over the
outcome of each call (`gen`, an `Except`-valued function standing for
the generation client).  The JavaScript runtime facts used are:
`Promise.all` fulfils with the values in input order and rejects with
the first rejection in completion order; continuations of the already
launched calls run in completion order on the single thread.
-/

/-! ## Data model (src/types.ts) -/

/-- The fields of a browser `File` object the component reads: its declared
media type, and the data URL `FileReader.readAsDataURL` yields for its bytes
(the read is an external browser operation, so its result is carried as an
attribute of the file). -/
structure JsFile where
  type : String
  dataUrl : String
  deriving Repr, DecidableEq

/-- `OriginalImage` of src/types.ts: the uploaded file and its data URL. -/
structure OriginalImage where
  file : JsFile
  dataUrl : String
  deriving Repr, DecidableEq

/-- `GeneratedImage` of src/types.ts: an expression label and the encoded image. -/
structure GeneratedImage where
  expression : String
  base64 : String
  deriving Repr, DecidableEq

/-- The component state of `App` (src/unnamed/part_000): the five `useState`
cells `originalImage`, `generatedImages`, `isLoading`, `error`, `progress`. -/
structure AppState where
  originalImage : Option OriginalImage
  generatedImages : List GeneratedImage
  isLoading : Bool
  error : Option String
  progress : Nat
  deriving Repr, DecidableEq

/-! ## Catalog and generation client -/

/-- Modelled from the spec: `constants.ts` (imported by the component for
`EXPRESSIONS_TO_GENERATE`) is not under src/.  The spec fixes a static
ordered catalog of 8 expression labels, naming these example labels and
stating that the exact wording is configuration, not contract. -/
def EXPRESSIONS_TO_GENERATE : List String :=
  ["Happy", "Sad", "Angry", "Surprised", "Disgusted", "Fearful", "Neutral", "Laughing"]

/-- Whether a generation-call outcome is a success. -/
def isOkResult (r : Except String String) : Bool :=
  match r with
  | .ok _ => true
  | .error _ => false

/-! ## String helpers used by the handlers -/

/-- JS `s.startsWith(pre)`, embedded on the character lists. -/
def strStartsWith (s pre : String) : Bool := pre.data.isPrefixOf s.data

/-- JS `s.split(",")[1]` on character lists: the segment strictly between the
first comma and the following comma (or end of string); `none` when the string
has no comma (JS yields `undefined` there). -/
def segAfterFirstComma : List Char → Option (List Char)
  | [] => none
  | c :: rest =>
    if c = ',' then some (rest.takeWhile (fun x => !(x == ','))) else segAfterFirstComma rest

/-- JS `s.split(",")[1]` as used by the component (absent element read as ""). -/
def jsSplitComma1 (s : String) : String :=
  String.mk ((segAfterFirstComma s.data).getD [])

/-- The spec's wording of the media-type strip: everything up to and including
the first comma removed. -/
def afterFirstCommaChars : List Char → List Char
  | [] => []
  | c :: rest => if c = ',' then rest else afterFirstCommaChars rest

/-- The spec's media-type strip on strings. -/
def specAfterFirstComma (s : String) : String :=
  String.mk (afterFirstCommaChars s.data)

/-- JS `\s` (the whitespace class used by `replace(/\s+/g, "_")`). -/
def isJsWhitespace (c : Char) : Bool :=
  c = ' ' || c = '\t' || c = '\n' || c = '\x0b' || c = '\x0c' || c = '\r' ||
  c.toNat = 0xA0 || c.toNat = 0x1680 || (0x2000 ≤ c.toNat && c.toNat ≤ 0x200A) ||
  c.toNat = 0x2028 || c.toNat = 0x2029 || c.toNat = 0x202F || c.toNat = 0x205F ||
  c.toNat = 0x3000 || c.toNat = 0xFEFF

/-- JS `expression.replace(/[\(\)]/g, "")`: every parenthesis removed. -/
def stripParensChars (l : List Char) : List Char :=
  l.filter (fun c => !(c == '(' || c == ')'))

/-- JS `.replace(/\s+/g, "_")`: each maximal run of whitespace becomes one
underscore.  The boolean argument records whether the previous character was
whitespace (i.e. whether a run is already open). -/
def collapseWsAux : Bool → List Char → List Char
  | _, [] => []
  | prevWs, c :: rest =>
    if isJsWhitespace c then
      if prevWs then collapseWsAux true rest
      else '_' :: collapseWsAux true rest
    else c :: collapseWsAux false rest

/-- The per-entry archive filename of `handleDownloadAll`
(src/unnamed/part_000): parentheses removed, whitespace runs collapsed to one
underscore, ".png" appended. -/
def expressionFileName (expr : String) : String :=
  String.mk (collapseWsAux false (stripParensChars expr.data)) ++ ".png"

/-! ## Base64 decoding (for the archive entries) -/

/-- Value of a standard base64 alphabet character. -/
def b64Val (c : Char) : Option Nat :=
  if 'A' ≤ c ∧ c ≤ 'Z' then some (c.toNat - 65)
  else if 'a' ≤ c ∧ c ≤ 'z' then some (c.toNat - 97 + 26)
  else if '0' ≤ c ∧ c ≤ '9' then some (c.toNat - 48 + 52)
  else if c = '+' then some 62
  else if c = '/' then some 63
  else none

/-- Standard base64 decoding of a character list into bytes; `none` on
malformed input.  Padding with "=" is allowed only in the final quartet. -/
def decodeB64Chars : List Char → Option (List Nat)
  | [] => some []
  | c1 :: c2 :: c3 :: c4 :: rest =>
    match b64Val c1, b64Val c2 with
    | some v1, some v2 =>
      if c3 = '=' then
        if c4 = '=' ∧ rest = [] then some [v1 * 4 + v2 / 16] else none
      else
        match b64Val c3 with
        | some v3 =>
          if c4 = '=' then
            if rest = [] then some [v1 * 4 + v2 / 16, v2 % 16 * 16 + v3 / 4] else none
          else
            match b64Val c4, decodeB64Chars rest with
            | some v4, some bs =>
              some ((v1 * 4 + v2 / 16) :: (v2 % 16 * 16 + v3 / 4) :: (v3 % 4 * 64 + v4) :: bs)
            | _, _ => none
        | none => none
    | _, _ => none
  | _ => none

/-- Base64 decoding of a string into bytes. -/
def decodeBase64 (s : String) : Option (List Nat) :=
  decodeB64Chars s.data

/-! ## Archive exporter (`handleDownloadAll`) -/

/-- Modelled from the spec: the archive library (`JSZip`, declared but
external to the repository) accepts (filename, content, base64 flag) calls and
produces one archive with one entry per call, the flagged content decoded from
base64.  This is the entry `handleDownloadAll` adds for one image:
`zip.file(fileName, img.base64.split(",")[1], base64 flag)`. -/
def zipEntryFor (img : GeneratedImage) : String × Option (List Nat) :=
  (expressionFileName img.expression, decodeBase64 (jsSplitComma1 img.base64))

/-- `handleDownloadAll` (src/unnamed/part_000): returns without an archive
when there are no generated images, otherwise builds one archive entry per
image. -/
def handleDownloadAll (images : List GeneratedImage) : Option (List (String × Option (List Nat))) :=
  if images.length = 0 then none
  else some (images.map zipEntryFor)

/-! ## Image ingestion -/

/-- `handleImageUpload` (src/unnamed/part_000): install the uploaded image and
clear results, error and progress. -/
def handleImageUpload (image : OriginalImage) (s : AppState) : AppState :=
  { s with originalImage := some image, generatedImages := [], error := none, progress := 0 }

/-- `handleFileChange` of the uploader (src/unnamed/part_000): the selected
file is accepted only when its declared media type starts with "image/"; the
accepted file is read and handed to `onImageUpload` (`handleImageUpload`),
anything else leaves the state untouched. -/
def handleFileChange (mfile : Option JsFile) (s : AppState) : AppState :=
  match mfile with
  | none => s
  | some file =>
    if strStartsWith file.type "image/" then
      handleImageUpload { file := file, dataUrl := file.dataUrl } s
    else s

/-! ## Batch orchestrator (`handleGenerateExpressions`) -/

/-- `Math.round(n / d)` on the exact rational: round half away from zero on
nonnegative values, `floor(n / d + 1/2)`.  (For the catalog size 8 the JS
float arithmetic in `(completedCount / total) * 100` is exact, so the
rational value is the float value.) -/
def jsRound (n d : Nat) : Nat := (2 * n + d) / (2 * d)

/-- The completion counter and the emitted progress values of one run.
`completed` is the component's local `completedCount`; `emitted` lists the
arguments of the `setProgress` calls in the order they happened. -/
structure ProgressTrace where
  completed : Nat
  emitted : List Nat
  deriving Repr, DecidableEq

/-- The success continuations of the launched calls, run in completion order:
a fulfilled call increments `completedCount` and emits
`Math.round((completedCount / total) * 100)`; a rejected call has no success
continuation, so it neither increments nor emits. -/
def processCompletions (f : String → Except String String) (total : Nat) :
    List String → ProgressTrace → ProgressTrace
  | [], t => t
  | e :: rest, t =>
    match f e with
    | .ok _ =>
      processCompletions f total rest
        ⟨t.completed + 1, t.emitted ++ [jsRound (100 * (t.completed + 1)) total]⟩
    | .error _ => processCompletions f total rest t

/-- The rejection `Promise.all` propagates: the message of the first call in
completion order to fail, `none` when every call succeeds. -/
def firstErrorIn (f : String → Except String String) : List String → Option String
  | [] => none
  | e :: rest =>
    match f e with
    | .ok _ => firstErrorIn f rest
    | .error msg => some msg

/-- The fulfilment value of `Promise.all`: the per-call values in input
(catalog) order, each call's value being the record built in its `then`
continuation — the expression label and the returned payload behind the fixed
"data:image/png;base64," prefix.  `none` when some call rejected. -/
def promiseAllValues (f : String → Except String String) : List String → Option (List GeneratedImage)
  | [] => some []
  | e :: rest =>
    match f e, promiseAllValues f rest with
    | .ok b, some l =>
      some ({ expression := e, base64 := "data:image/png;base64," ++ b } :: l)
    | _, _ => none

/-- The fallback message of the catch branch. -/
def defaultGenErrorMsg : String := "An unknown error occurred during image generation."

/-- The state after the synchronous head of `handleGenerateExpressions`:
loading set, error cleared, results cleared, progress reset — before any
generation call is issued. -/
def batchStartState (s : AppState) : AppState :=
  { s with isLoading := true, error := none, generatedImages := [], progress := 0 }

/-- Number of successful calls among a list of launched calls. -/
def countOk (f : String → Except String String) (l : List String) : Nat :=
  l.countP (fun e => isOkResult (f e))

/-- `handleGenerateExpressions` (src/unnamed/part_000).  `gen` is the
generation client `generateExpression(base64Data, mimeType, expression)`
(its module is external to src/; the spec's contract is payload in,
payload out or a descriptive error), `order` the order in which the 8
launched calls resolve.  Returns the final state and the list of emitted
progress values. -/
def handleGenerateExpressions (gen : String → String → String → Except String String)
    (order : List String) (s : AppState) : AppState × List Nat :=
  match s.originalImage with
  | none => (s, [])
  | some img =>
    let s1 := batchStartState s
    let base64Data := jsSplitComma1 img.dataUrl
    let mimeType := img.file.type
    let total := EXPRESSIONS_TO_GENERATE.length
    let f := fun e => gen base64Data mimeType e
    let t := processCompletions f total order ⟨0, []⟩
    match firstErrorIn f order with
    | none =>
      ({ s1 with
          generatedImages := (promiseAllValues f EXPRESSIONS_TO_GENERATE).getD [],
          progress := t.emitted.getLastD 0,
          isLoading := false }, t.emitted)
    | some msg =>
      ({ s1 with
          error := some (if msg = "" then defaultGenErrorMsg else msg),
          progress := t.emitted.getLastD 0,
          isLoading := false }, t.emitted)

/-! ## Concrete fixtures used by the witness theorems -/

/-- A concrete image-typed file. -/
def wFile : JsFile := { type := "image/png", dataUrl := "data:image/png;base64,QUJD" }

/-- A concrete uploaded image. -/
def wImg : OriginalImage := { file := wFile, dataUrl := "data:image/png;base64,QUJD" }

/-- A clean state holding the uploaded image. -/
def wState : AppState :=
  { originalImage := some wImg, generatedImages := [], isLoading := false,
    error := none, progress := 0 }

/-- A state left by a failed run: an error banner and a stale progress value. -/
def wFailedState : AppState :=
  { originalImage := some wImg,
    generatedImages := [],
    isLoading := false, error := some "boom", progress := 25 }

/-- A state with no uploaded image. -/
def wEmptyState : AppState :=
  { originalImage := none,
    generatedImages := [{ expression := "Happy", base64 := "data:image/png;base64,AA==" }],
    isLoading := false, error := some "old", progress := 25 }

/-- A generation client for which every call succeeds. -/
def wGenOk : String → String → String → Except String String :=
  fun _ _ e => Except.ok (e ++ "64")

/-- A generation client for which exactly the "Angry" call fails. -/
def wGenBad : String → String → String → Except String String :=
  fun _ _ e => if e = "Angry" then Except.error "boom" else Except.ok "AA=="

/-- A completion order: the catalog resolved back to front. -/
def wOrder : List String :=
  ["Laughing", "Neutral", "Fearful", "Disgusted", "Surprised", "Angry", "Sad", "Happy"]

/-- A concrete non-empty result list for the exporter. -/
def wImages : List GeneratedImage :=
  [{ expression := "Surprised (Gasp)", base64 := "data:image/png;base64,AA==" },
   { expression := "Sad", base64 := "data:image/png;base64,QUJD" }]

/-- A non-image file. -/
def wBadFile : JsFile := { type := "text/plain", dataUrl := "data:text/plain;base64,AA==" }

/-! ## Helper lemmas -/

theorem takeWhile_of_all (p : Char → Bool) (l : List Char) (h : ∀ c ∈ l, p c = true) :
    l.takeWhile p = l := by
  induction l with
  | nil => rfl
  | cons c rest ih =>
    rw [List.takeWhile_cons, if_pos (h c (List.mem_cons_self c rest))]
    rw [ih (fun x hx => h x (List.mem_cons_of_mem c hx))]

theorem jsSplitComma1_eq_spec (l : List Char)
    (h : ∀ c ∈ afterFirstCommaChars l, ¬c = ',') :
    (segAfterFirstComma l).getD [] = afterFirstCommaChars l := by
  induction l with
  | nil => rfl
  | cons c rest ih =>
    by_cases hc : c = ','
    · rw [afterFirstCommaChars, if_pos hc] at h ⊢
      rw [segAfterFirstComma, if_pos hc, Option.getD_some]
      exact takeWhile_of_all _ rest (fun x hx => by
        have := h x hx
        simp [this])
    · rw [afterFirstCommaChars, if_neg hc] at h ⊢
      rw [segAfterFirstComma, if_neg hc]
      exact ih h

theorem emitted_cons (total c m : Nat) :
    (List.range (m + 1)).map (fun k => jsRound (100 * (c + k + 1)) total)
      = jsRound (100 * (c + 1)) total ::
        (List.range m).map (fun k => jsRound (100 * (c + 1 + k + 1)) total) := by
  rw [List.range_succ_eq_map, List.map_cons, List.map_map]
  refine congrArg₂ List.cons (by norm_num) ?_
  refine List.map_congr_left (fun k _ => ?_)
  simp only [Function.comp_apply, Nat.succ_eq_add_one]
  refine congrArg₂ jsRound (by ring) rfl

theorem processCompletions_eq (f : String → Except String String) (total : Nat)
    (order : List String) (t : ProgressTrace) :
    processCompletions f total order t =
      ⟨t.completed + countOk f order,
       t.emitted ++ (List.range (countOk f order)).map
         (fun k => jsRound (100 * (t.completed + k + 1)) total)⟩ := by
  induction order generalizing t with
  | nil => simp [processCompletions, countOk]
  | cons e rest ih =>
    cases hfe : f e with
    | ok b =>
      have hcount : countOk f (e :: rest) = countOk f rest + 1 := by
        simp [countOk, List.countP_cons, isOkResult, hfe]
      simp only [processCompletions, hfe]
      rw [ih, hcount]
      dsimp only
      refine congrArg₂ ProgressTrace.mk (by omega) ?_
      rw [emitted_cons, List.append_assoc, List.singleton_append]
    | error msg =>
      have hcount : countOk f (e :: rest) = countOk f rest := by
        simp [countOk, List.countP_cons, isOkResult, hfe]
      simp only [processCompletions, hfe]
      rw [ih, hcount]

theorem firstErrorIn_eq_none (f : String → Except String String) (order : List String) :
    firstErrorIn f order = none ↔ ∀ e ∈ order, isOkResult (f e) = true := by
  induction order with
  | nil => simp [firstErrorIn]
  | cons e rest ih =>
    cases hfe : f e with
    | ok b => simp [firstErrorIn, hfe, ih, isOkResult]
    | error msg => simp [firstErrorIn, hfe, isOkResult]

theorem promiseAllValues_ok (f : String → Except String String) (cat : List String)
    (h : ∀ e ∈ cat, isOkResult (f e) = true) :
    ∃ l, promiseAllValues f cat = some l ∧ l.map (fun gi => gi.expression) = cat := by
  induction cat with
  | nil => exact ⟨[], rfl, rfl⟩
  | cons e rest ih =>
    obtain ⟨l, hl, hmap⟩ := ih (fun x hx => h x (List.mem_cons_of_mem e hx))
    have he := h e (List.mem_cons_self e rest)
    cases hfe : f e with
    | error msg => rw [hfe] at he; simp [isOkResult] at he
    | ok b =>
      refine ⟨{ expression := e, base64 := "data:image/png;base64," ++ b } :: l, ?_, ?_⟩
      · rw [promiseAllValues, hfe, hl]
      · simp [hmap]

theorem promiseAllValues_mem (f : String → Except String String) (cat : List String)
    (l : List GeneratedImage) (h : promiseAllValues f cat = some l) :
    ∀ gi ∈ l, ∃ b, f gi.expression = Except.ok b ∧
      gi.base64 = "data:image/png;base64," ++ b := by
  induction cat generalizing l with
  | nil =>
    rw [promiseAllValues] at h
    cases h
    intro gi hgi
    cases hgi
  | cons e rest ih =>
    rw [promiseAllValues] at h
    cases hfe : f e with
    | error msg => rw [hfe] at h; cases h
    | ok b =>
      rw [hfe] at h
      cases hrest : promiseAllValues f rest with
      | none => rw [hrest] at h; cases h
      | some l2 =>
        rw [hrest] at h
        cases h
        intro gi hgi
        rcases List.mem_cons.mp hgi with hgi | hgi
        · subst hgi
          exact ⟨b, hfe, rfl⟩
        · exact ih l2 hrest gi hgi

theorem handleGen_eq_clean (gen : String → String → String → Except String String)
    (order : List String) (s : AppState) (img : OriginalImage)
    (h : s.originalImage = some img) :
    handleGenerateExpressions gen order s
      = handleGenerateExpressions gen order
          { originalImage := some img, generatedImages := [], isLoading := false,
            error := none, progress := 0 } := by
  obtain ⟨o, gis, il, er, pr⟩ := s
  obtain rfl : o = some img := h
  rfl

theorem handleGen_success (gen : String → String → String → Except String String)
    (order : List String) (s : AppState) (img : OriginalImage)
    (h : s.originalImage = some img)
    (hf : firstErrorIn (fun e => gen (jsSplitComma1 img.dataUrl) img.file.type e) order = none) :
    handleGenerateExpressions gen order s
      = ({ originalImage := some img,
           generatedImages :=
             (promiseAllValues (fun e => gen (jsSplitComma1 img.dataUrl) img.file.type e)
               EXPRESSIONS_TO_GENERATE).getD [],
           isLoading := false, error := none,
           progress :=
             (processCompletions (fun e => gen (jsSplitComma1 img.dataUrl) img.file.type e)
               EXPRESSIONS_TO_GENERATE.length order ⟨0, []⟩).emitted.getLastD 0 },
         (processCompletions (fun e => gen (jsSplitComma1 img.dataUrl) img.file.type e)
           EXPRESSIONS_TO_GENERATE.length order ⟨0, []⟩).emitted) := by
  obtain ⟨o, gis, il, er, pr⟩ := s
  obtain rfl : o = some img := h
  simp only [handleGenerateExpressions, batchStartState, hf]

theorem handleGen_failure (gen : String → String → String → Except String String)
    (order : List String) (s : AppState) (img : OriginalImage) (m : String)
    (h : s.originalImage = some img)
    (hf : firstErrorIn (fun e => gen (jsSplitComma1 img.dataUrl) img.file.type e) order = some m) :
    handleGenerateExpressions gen order s
      = ({ originalImage := some img,
           generatedImages := [],
           isLoading := false,
           error := some (if m = "" then defaultGenErrorMsg else m),
           progress :=
             (processCompletions (fun e => gen (jsSplitComma1 img.dataUrl) img.file.type e)
               EXPRESSIONS_TO_GENERATE.length order ⟨0, []⟩).emitted.getLastD 0 },
         (processCompletions (fun e => gen (jsSplitComma1 img.dataUrl) img.file.type e)
           EXPRESSIONS_TO_GENERATE.length order ⟨0, []⟩).emitted) := by
  obtain ⟨o, gis, il, er, pr⟩ := s
  obtain rfl : o = some img := h
  simp only [handleGenerateExpressions, batchStartState, hf]

theorem handleGen_emitted (gen : String → String → String → Except String String)
    (order : List String) (s : AppState) (img : OriginalImage)
    (h : s.originalImage = some img) :
    (handleGenerateExpressions gen order s).2
      = (processCompletions (fun e => gen (jsSplitComma1 img.dataUrl) img.file.type e)
          EXPRESSIONS_TO_GENERATE.length order ⟨0, []⟩).emitted := by
  cases hf : firstErrorIn (fun e => gen (jsSplitComma1 img.dataUrl) img.file.type e) order with
  | none => rw [handleGen_success gen order s img h hf]
  | some m => rw [handleGen_failure gen order s img m h hf]

theorem collapseWsAux_good (l : List Char) (b : Bool)
    (h : ∀ c ∈ l, (c == '(' || c == ')') = false) :
    ∀ c ∈ collapseWsAux b l, ((c == '(' || c == ')') || isJsWhitespace c) = false := by
  induction l generalizing b with
  | nil => intro c hc; simp [collapseWsAux] at hc
  | cons x rest ih =>
    intro c hc
    have hx := h x (List.mem_cons_self x rest)
    have hrest : ∀ c ∈ rest, (c == '(' || c == ')') = false :=
      fun y hy => h y (List.mem_cons_of_mem x hy)
    rw [collapseWsAux] at hc
    by_cases hws : isJsWhitespace x = true
    · rw [if_pos hws] at hc
      cases b with
      | true => exact ih true hrest c hc
      | false =>
        rcases List.mem_cons.mp hc with rfl | hc
        · decide
        · exact ih true hrest c hc
    · rw [if_neg hws] at hc
      rcases List.mem_cons.mp hc with rfl | hc
      · simp only [Bool.not_eq_true] at hws
        simp [hx, hws]
      · exact ih false hrest c hc

/-! ## Claim theorems -/

/-- Claim C4: the archive filename of an expression label is the label with
parentheses removed, each whitespace run replaced by one underscore and ".png"
appended; the derivation is a function of the label alone (deterministic), its
output contains no parenthesis and no whitespace, and on the spec's two
examples it yields "Surprised_Gasp.png" and "Sad.png". -/
theorem C4_filename_derivation :
    expressionFileName "Surprised (Gasp)" = "Surprised_Gasp.png"
    ∧ expressionFileName "Sad" = "Sad.png"
    ∧ (∀ e : String,
        expressionFileName e
          = String.mk (collapseWsAux false (stripParensChars e.data)) ++ ".png")
    ∧ ∀ e : String,
        ((expressionFileName e).data.all
          (fun c => !((c == '(' || c == ')') || isJsWhitespace c))) = true := by
  refine ⟨by decide, by decide, fun e => rfl, fun e => ?_⟩
  rw [expressionFileName, String.data_append, List.all_append]
  refine Bool.and_eq_true_iff.mpr ⟨?_, by decide⟩
  rw [List.all_eq_true]
  intro c hc
  have hpar : ∀ x ∈ stripParensChars e.data, (x == '(' || x == ')') = false := by
    intro x hx
    have := List.of_mem_filter hx
    simpa using this
  have := collapseWsAux_good (stripParensChars e.data) false hpar c hc
  simpa using this

/-- Claim C7: exporting with an empty generated-image sequence is a no-op —
`handleDownloadAll` produces an archive exactly when the sequence is
non-empty, so no empty archive is ever produced. -/
theorem C7_empty_export_noop :
    handleDownloadAll [] = none
    ∧ ∀ images : List GeneratedImage, (handleDownloadAll images = none ↔ images = []) := by
  refine ⟨rfl, fun images => ?_⟩
  cases images with
  | nil => simp [handleDownloadAll]
  | cons a l => simp [handleDownloadAll]

/-- Claim C8: a selected file is accepted (producing the `OriginalImage` made
of the file and its data URL) exactly when its declared media type starts with
"image/"; otherwise the state — in particular the current image — is left
unchanged. -/
theorem C8_ingestion_media_type_gate (file : JsFile) (s : AppState) :
    ((handleFileChange (some file) s).originalImage
      = if strStartsWith file.type "image/" = true then
          some { file := file, dataUrl := file.dataUrl }
        else s.originalImage)
    ∧ (strStartsWith file.type "image/" = false → handleFileChange (some file) s = s) := by
  constructor
  · by_cases hb : strStartsWith file.type "image/" = true
    · simp [handleFileChange, handleImageUpload, hb]
    · simp only [Bool.not_eq_true] at hb
      simp [handleFileChange, handleImageUpload, hb]
  · intro hb
    simp [handleFileChange, hb]

/-- Witness for C8 at a concrete non-image file: the gate is false and the
state is untouched. -/
theorem C8_witness :
    (strStartsWith wBadFile.type "image/" = false)
    ∧ handleFileChange (some wBadFile) wState = wState :=
  ⟨by decide, (C8_ingestion_media_type_gate wBadFile wState).2 (by decide)⟩

/-- Claim C9: with no uploaded image the batch generation handler is a no-op:
the state is returned unchanged and no progress is emitted. -/
theorem C9_no_image_noop (gen : String → String → String → Except String String)
    (order : List String) (s : AppState) (h : s.originalImage = none) :
    handleGenerateExpressions gen order s = (s, []) := by
  simp [handleGenerateExpressions, h]

/-- Witness for C9 at a concrete imageless state. -/
theorem C9_witness :
    (wEmptyState.originalImage = none)
    ∧ handleGenerateExpressions wGenOk wOrder wEmptyState = (wEmptyState, []) :=
  ⟨rfl, C9_no_image_noop wGenOk wOrder wEmptyState rfl⟩

/-- Claim C5: for a non-empty sequence of N generated images whose payloads
(the part after the first comma) are comma-free, the export produces an
archive of exactly N entries, each entry holding the base64-decoded bytes of
its source's payload with everything up to and including the first comma
stripped. -/
theorem C5_archive_entries (images : List GeneratedImage)
    (hne : ¬images = [])
    (hcf : ∀ img ∈ images, ∀ c ∈ afterFirstCommaChars img.base64.data, ¬c = ',') :
    handleDownloadAll images
      = some (images.map (fun img =>
          (expressionFileName img.expression, decodeBase64 (specAfterFirstComma img.base64))))
    ∧ (images.map (fun img =>
          (expressionFileName img.expression, decodeBase64 (specAfterFirstComma img.base64)))).length
        = images.length := by
  constructor
  · rw [handleDownloadAll, if_neg (by simpa [List.length_eq_zero] using hne)]
    refine congrArg some (List.map_congr_left (fun img hmem => ?_))
    rw [zipEntryFor]
    have hsplit : jsSplitComma1 img.base64 = specAfterFirstComma img.base64 := by
      rw [jsSplitComma1, specAfterFirstComma, jsSplitComma1_eq_spec img.base64.data (hcf img hmem)]
    rw [hsplit]
  · simp

/-- Witness for C5 at a concrete two-image list. -/
theorem C5_witness :
    ((¬wImages = [])
      ∧ ∀ img ∈ wImages, ∀ c ∈ afterFirstCommaChars img.base64.data, ¬c = ',')
    ∧ (handleDownloadAll wImages
        = some (wImages.map (fun img =>
            (expressionFileName img.expression, decodeBase64 (specAfterFirstComma img.base64))))
      ∧ (wImages.map (fun img =>
            (expressionFileName img.expression, decodeBase64 (specAfterFirstComma img.base64)))).length
          = wImages.length) :=
  ⟨⟨by decide, by decide⟩, C5_archive_entries wImages (by decide) (by decide)⟩

/-- Claim C6: a new invocation of the batch handler on a state carrying a
prior failed run resets progress to 0 and the generated images to empty
before any call is issued (`batchStartState`), and its outcome coincides with
the outcome from a clean state — no entry of the failed run survives. -/
theorem C6_rerun_resets (gen : String → String → String → Except String String)
    (order : List String) (s : AppState) (img : OriginalImage)
    (h : s.originalImage = some img) (hfail : s.error.isSome = true) :
    (batchStartState s).progress = 0
    ∧ (batchStartState s).generatedImages = []
    ∧ handleGenerateExpressions gen order s
        = handleGenerateExpressions gen order
            { originalImage := some img, generatedImages := [], isLoading := false,
              error := none, progress := 0 } :=
  ⟨rfl, rfl, handleGen_eq_clean gen order s img h⟩

/-- Witness for C6 at a concrete failed-run state. -/
theorem C6_witness :
    (wFailedState.originalImage = some wImg ∧ wFailedState.error.isSome = true)
    ∧ ((batchStartState wFailedState).progress = 0
      ∧ (batchStartState wFailedState).generatedImages = []
      ∧ handleGenerateExpressions wGenBad wOrder wFailedState
          = handleGenerateExpressions wGenBad wOrder
              { originalImage := some wImg, generatedImages := [], isLoading := false,
                error := none, progress := 0 }) :=
  ⟨⟨rfl, rfl⟩, C6_rerun_resets wGenBad wOrder wFailedState wImg rfl rfl⟩

/-- Claim C2: when some call of the batch fails (the first failure in
completion order carrying message `m`), the run ends with that message as the
batch error and with no generated images exposed — the collection stays
empty. -/
theorem C2_failfast_discards (gen : String → String → String → Except String String)
    (order : List String) (s : AppState) (img : OriginalImage) (m : String)
    (h : s.originalImage = some img)
    (hm : firstErrorIn (fun e => gen (jsSplitComma1 img.dataUrl) img.file.type e) order = some m)
    (hne : ¬m = "") :
    (handleGenerateExpressions gen order s).1.error = some m
    ∧ (handleGenerateExpressions gen order s).1.generatedImages = [] := by
  rw [handleGen_failure gen order s img m h hm]
  exact ⟨by simp [hne], rfl⟩

/-- Witness for C2: a run in which the "Angry" call fails with "boom". -/
theorem C2_witness :
    (wState.originalImage = some wImg
      ∧ firstErrorIn (fun e => wGenBad (jsSplitComma1 wImg.dataUrl) wImg.file.type e) wOrder
          = some "boom"
      ∧ ¬("boom" : String) = "")
    ∧ ((handleGenerateExpressions wGenBad wOrder wState).1.error = some "boom"
      ∧ (handleGenerateExpressions wGenBad wOrder wState).1.generatedImages = []) :=
  ⟨⟨rfl, by decide, by decide⟩,
   C2_failfast_discards wGenBad wOrder wState wImg "boom" rfl (by decide) (by decide)⟩

/-- Claim C1: for any completion order of the 8 calls (any permutation of the
catalog), when every call succeeds the run produces exactly 8 generated
images whose expression labels are the catalog `EXPRESSIONS_TO_GENERATE` in
its declared order. -/
theorem C1_success_catalog_order (gen : String → String → String → Except String String)
    (order : List String) (s : AppState) (img : OriginalImage)
    (h : s.originalImage = some img)
    (hperm : order.Perm EXPRESSIONS_TO_GENERATE)
    (hok : ∀ e ∈ EXPRESSIONS_TO_GENERATE,
      isOkResult (gen (jsSplitComma1 img.dataUrl) img.file.type e) = true) :
    ((handleGenerateExpressions gen order s).1.generatedImages.map (fun gi => gi.expression))
        = EXPRESSIONS_TO_GENERATE
    ∧ (handleGenerateExpressions gen order s).1.generatedImages.length = 8 := by
  have hokOrder : ∀ e ∈ order,
      isOkResult (gen (jsSplitComma1 img.dataUrl) img.file.type e) = true :=
    fun e he => hok e (hperm.mem_iff.mp he)
  have hf : firstErrorIn (fun e => gen (jsSplitComma1 img.dataUrl) img.file.type e) order
      = none := (firstErrorIn_eq_none _ _).mpr hokOrder
  obtain ⟨l, hl, hmap⟩ := promiseAllValues_ok _ _ hok
  rw [handleGen_success gen order s img h hf]
  dsimp only
  rw [hl, Option.getD_some]
  refine ⟨hmap, ?_⟩
  have hlen := congrArg List.length hmap
  simpa [EXPRESSIONS_TO_GENERATE] using hlen

/-- Witness for C1: all calls succeed, resolving back to front. -/
theorem C1_witness :
    (wState.originalImage = some wImg
      ∧ wOrder.Perm EXPRESSIONS_TO_GENERATE
      ∧ ∀ e ∈ EXPRESSIONS_TO_GENERATE,
          isOkResult (wGenOk (jsSplitComma1 wImg.dataUrl) wImg.file.type e) = true)
    ∧ (((handleGenerateExpressions wGenOk wOrder wState).1.generatedImages.map
          (fun gi => gi.expression)) = EXPRESSIONS_TO_GENERATE
      ∧ (handleGenerateExpressions wGenOk wOrder wState).1.generatedImages.length = 8) :=
  ⟨⟨rfl, by decide, by decide⟩,
   C1_success_catalog_order wGenOk wOrder wState wImg rfl (by decide) (by decide)⟩

/-- Claim C3: the progress values a run emits are exactly
`round(100 * completed / total)` for `completed = 1..S`, `S` the number of
successful calls — one emission per successful call, none for a failed call —
the emitted sequence is strictly increasing, and 100 is emitted exactly when
all 8 calls succeeded. -/
theorem C3_progress_invariants (gen : String → String → String → Except String String)
    (order : List String) (s : AppState) (img : OriginalImage)
    (h : s.originalImage = some img)
    (hperm : order.Perm EXPRESSIONS_TO_GENERATE) :
    (handleGenerateExpressions gen order s).2
      = (List.range (countOk (fun e => gen (jsSplitComma1 img.dataUrl) img.file.type e)
            EXPRESSIONS_TO_GENERATE)).map
          (fun k => jsRound (100 * (k + 1)) EXPRESSIONS_TO_GENERATE.length)
    ∧ List.Chain' (fun a b => a < b) (handleGenerateExpressions gen order s).2
    ∧ (100 ∈ (handleGenerateExpressions gen order s).2
        ↔ countOk (fun e => gen (jsSplitComma1 img.dataUrl) img.file.type e)
            EXPRESSIONS_TO_GENERATE = EXPRESSIONS_TO_GENERATE.length) := by
  have hco : countOk (fun e => gen (jsSplitComma1 img.dataUrl) img.file.type e) order
      = countOk (fun e => gen (jsSplitComma1 img.dataUrl) img.file.type e)
          EXPRESSIONS_TO_GENERATE := by
    unfold countOk
    exact List.Perm.countP_eq _ hperm
  have hemit : (handleGenerateExpressions gen order s).2
      = (List.range (countOk (fun e => gen (jsSplitComma1 img.dataUrl) img.file.type e)
            EXPRESSIONS_TO_GENERATE)).map
          (fun k => jsRound (100 * (k + 1)) EXPRESSIONS_TO_GENERATE.length) := by
    rw [handleGen_emitted gen order s img h, processCompletions_eq]
    dsimp only
    rw [hco]
    simp
  have hSle : countOk (fun e => gen (jsSplitComma1 img.dataUrl) img.file.type e)
      EXPRESSIONS_TO_GENERATE ≤ 8 := List.countP_le_length _
  refine ⟨hemit, ?_, ?_⟩
  · rw [hemit]
    generalize countOk (fun e => gen (jsSplitComma1 img.dataUrl) img.file.type e)
        EXPRESSIONS_TO_GENERATE = S at hSle ⊢
    interval_cases S <;> (rw [List.chain'_iff_pairwise]; decide)
  · rw [hemit]
    generalize countOk (fun e => gen (jsSplitComma1 img.dataUrl) img.file.type e)
        EXPRESSIONS_TO_GENERATE = S at hSle ⊢
    interval_cases S <;> decide

/-- Witness for C3: a run in which 7 calls succeed and the "Angry" call
fails, resolving back to front. -/
theorem C3_witness :
    (wState.originalImage = some wImg ∧ wOrder.Perm EXPRESSIONS_TO_GENERATE)
    ∧ ((handleGenerateExpressions wGenBad wOrder wState).2
        = (List.range (countOk (fun e => wGenBad (jsSplitComma1 wImg.dataUrl) wImg.file.type e)
              EXPRESSIONS_TO_GENERATE)).map
            (fun k => jsRound (100 * (k + 1)) EXPRESSIONS_TO_GENERATE.length)
      ∧ List.Chain' (fun a b => a < b) (handleGenerateExpressions wGenBad wOrder wState).2
      ∧ (100 ∈ (handleGenerateExpressions wGenBad wOrder wState).2
          ↔ countOk (fun e => wGenBad (jsSplitComma1 wImg.dataUrl) wImg.file.type e)
              EXPRESSIONS_TO_GENERATE = EXPRESSIONS_TO_GENERATE.length)) :=
  ⟨⟨rfl, by decide⟩, C3_progress_invariants wGenBad wOrder wState wImg rfl (by decide)⟩

/-- Claim C10: every generated image of a successful run carries the fixed
"data:image/png;base64," prefix followed by the payload the generation call
returned for its label — whatever the uploaded file's media type was. -/
theorem C10_encoded_image_format (gen : String → String → String → Except String String)
    (order : List String) (s : AppState) (img : OriginalImage)
    (h : s.originalImage = some img)
    (hok : ∀ e ∈ EXPRESSIONS_TO_GENERATE,
      isOkResult (gen (jsSplitComma1 img.dataUrl) img.file.type e) = true) :
    ∀ gi ∈ (handleGenerateExpressions gen order s).1.generatedImages,
      ∃ b, gen (jsSplitComma1 img.dataUrl) img.file.type gi.expression = Except.ok b
        ∧ gi.base64 = "data:image/png;base64," ++ b := by
  intro gi hgi
  cases hf : firstErrorIn (fun e => gen (jsSplitComma1 img.dataUrl) img.file.type e) order with
  | some m =>
    rw [handleGen_failure gen order s img m h hf] at hgi
    simp at hgi
  | none =>
    rw [handleGen_success gen order s img h hf] at hgi
    dsimp only at hgi
    cases hp : promiseAllValues (fun e => gen (jsSplitComma1 img.dataUrl) img.file.type e)
        EXPRESSIONS_TO_GENERATE with
    | none => rw [hp] at hgi; simp at hgi
    | some l =>
      rw [hp, Option.getD_some] at hgi
      exact promiseAllValues_mem _ _ l hp gi hgi

/-- Witness for C10: the all-success run with a "image/png" source file. -/
theorem C10_witness :
    (wState.originalImage = some wImg
      ∧ ∀ e ∈ EXPRESSIONS_TO_GENERATE,
          isOkResult (wGenOk (jsSplitComma1 wImg.dataUrl) wImg.file.type e) = true)
    ∧ ∀ gi ∈ (handleGenerateExpressions wGenOk wOrder wState).1.generatedImages,
        ∃ b, wGenOk (jsSplitComma1 wImg.dataUrl) wImg.file.type gi.expression = Except.ok b
          ∧ gi.base64 = "data:image/png;base64," ++ b :=
  ⟨⟨rfl, by decide⟩,
   C10_encoded_image_format wGenOk wOrder wState wImg rfl (by decide)⟩
